import Mathlib

/-!
Shallow embedding of the toydns DNS codec (Go).

Bytes are modelled as `Nat` values below 256 and byte buffers as `List Nat`.
A Go `[]byte` built from a literal or a test fixture has `cap = len`, so a
slice expression `b[lo:hi]` with `hi > len(b)` (or an index `b[i]` with
`i >= len(b)`) is a runtime panic; the embedding makes that outcome explicit
as the `crash` result.  Fallible operations return a `GoRes` value paired
with the parser state after the call, mirroring Go's mutable receiver.
-/

/-- The four error values declared in the source
(`errParsingDomainName`, `errParsingQuestion`, `errParsingRecord`,
`errInsufficientData`). -/
inductive DNSErr where
  | parsingDomainName
  | parsingQuestion
  | parsingRecord
  | insufficientData
  deriving DecidableEq, Repr

/-- Result of a Go operation: normal return, returned error, runtime panic
(`crash`), or exhausted recursion fuel (`diverge`, modelling the unbounded
pointer-chasing recursion in `parseDomainName`). -/
inductive GoRes (α : Type) where
  | ok : α → GoRes α
  | err : DNSErr → GoRes α
  | crash : GoRes α
  | diverge : GoRes α
  deriving DecidableEq, Repr

/-- `DNSHeader`: six uint16 fields, as in the source. -/
structure DNSHeader where
  QueryID : Nat
  Flags : Nat
  NumQuestions : Nat
  NumAnswers : Nat
  NumAuthorities : Nat
  NumAdditionals : Nat
  deriving DecidableEq, Repr

/-- `DNSQuestion`: decoded name bytes, record type, record class. -/
structure DNSQuestion where
  domainName : List Nat
  recordType : Nat
  recordClass : Nat
  deriving DecidableEq, Repr

/-- `DNSRecord`: decoded name, type, class, TTL, data length, raw data. -/
structure DNSRecord where
  Name : List Nat
  RecordType : Nat
  Class : Nat
  Ttl : Nat
  DataLength : Nat
  Data : List Nat
  deriving DecidableEq, Repr

/-- `DNSResponseParser`: the borrowed response buffer plus the cursor
offset, initialised to 0 by `NewParser`. -/
structure DNSResponseParser where
  bytes : List Nat
  offset : Nat
  deriving DecidableEq, Repr

/-- Go's `strings.Split(s, ".")` on a byte string: split around every
occurrence of the dot byte 46.  `Split("", ".")` yields one empty part. -/
def splitOnDot : List Nat → List (List Nat)
  | [] => [[]]
  | c :: rest =>
    if c = 46 then [] :: splitOnDot rest
    else
      match splitOnDot rest with
      | [] => [[c]]
      | p :: ps => (c :: p) :: ps

/-- Go's `bytes.Join(parts, ".")`. -/
def joinDots : List (List Nat) → List Nat
  | [] => []
  | [p] => p
  | p :: ps => p ++ 46 :: joinDots ps

/-- `encodeDomain`: split on dots, emit a length byte then the raw bytes of
every part, then a single zero terminator.  `byte(len(part))` truncates the
length modulo 256. -/
def encodeDomain (domainName : List Nat) : List Nat :=
  (splitOnDot domainName).foldl
    (fun output part => output ++ (part.length % 256) :: part) [] ++ [0]

/-- Big-endian bytes of a uint16 value, as `binary.Write` emits them. -/
def u16be (n : Nat) : List Nat := [n / 256 % 256, n % 256]

/-- The 12 header bytes `binary.Write` produces for a `DNSHeader`:
six big-endian uint16 fields in declaration order. -/
def headerBytes (h : DNSHeader) : List Nat :=
  u16be h.QueryID ++ (u16be h.Flags ++ (u16be h.NumQuestions ++
    (u16be h.NumAnswers ++ (u16be h.NumAuthorities ++ u16be h.NumAdditionals))))

/-- `buildQuery`: header (recursion-desired flag `1 <<< 8`, one question),
then the encoded name, the record type and class `IN = 1` as big-endian
uint16.  The random query ID is supplied by the environment
(`rand.Intn(1 <<< 16)`), so it is a parameter here. -/
def buildQuery (queryId : Nat) (domainName : List Nat) (recordType : Nat) :
    List Nat :=
  let header : DNSHeader :=
    { QueryID := queryId % 65536, Flags := 256, NumQuestions := 1,
      NumAnswers := 0, NumAuthorities := 0, NumAdditionals := 0 }
  headerBytes header ++ (encodeDomain domainName ++
    (u16be (recordType % 65536) ++ u16be 1))

/-- `read`: `n := copy(buf, d.bytes[d.offset:])`; a short copy returns
`errInsufficientData` without touching the offset, a full copy advances the
offset by `len(buf)`.  The slice expression `d.bytes[d.offset:]` itself
panics when the offset exceeds the buffer length. -/
def read (s : DNSResponseParser) (n : Nat) : GoRes (List Nat) × DNSResponseParser :=
  if s.offset ≤ s.bytes.length then
    let src := s.bytes.drop s.offset
    if src.length < n then (.err .insufficientData, s)
    else (.ok (src.take n), ⟨s.bytes, s.offset + n⟩)
  else (.crash, s)

/-- `binary.BigEndian.Uint16` of the first two bytes of a buffer. -/
def beUint16 (buf : List Nat) : Nat := buf.getD 0 0 * 256 + buf.getD 1 0

/-- `binary.BigEndian.Uint32` of the first four bytes of a buffer. -/
def beUint32 (buf : List Nat) : Nat :=
  ((buf.getD 0 0 * 256 + buf.getD 1 0) * 256 + buf.getD 2 0) * 256 + buf.getD 3 0

/-- `readUint16`: a 2-byte `read`; any read failure is reported as
`errParsingRecord` (also when called from question parsing). -/
def readUint16 (s : DNSResponseParser) : GoRes Nat × DNSResponseParser :=
  match read s 2 with
  | (.ok buf, s1) => (.ok (beUint16 buf), s1)
  | (.err _, s1) => (.err .parsingRecord, s1)
  | (.crash, s1) => (.crash, s1)
  | (.diverge, s1) => (.diverge, s1)

/-- `readUint32`: a 4-byte `read`; failures become `errParsingRecord`. -/
def readUint32 (s : DNSResponseParser) : GoRes Nat × DNSResponseParser :=
  match read s 4 with
  | (.ok buf, s1) => (.ok (beUint32 buf), s1)
  | (.err _, s1) => (.err .parsingRecord, s1)
  | (.crash, s1) => (.crash, s1)
  | (.diverge, s1) => (.diverge, s1)

/-- `parseHeader`: a 12-byte `read` decoded as six big-endian uint16 fields;
the read's own error is returned unchanged.  (`binary.Read` from an exact
12-byte buffer cannot fail, so that branch of the source is not reachable.) -/
def parseHeader (s : DNSResponseParser) : GoRes DNSHeader × DNSResponseParser :=
  match read s 12 with
  | (.ok buf, s1) =>
    (.ok { QueryID := beUint16 buf, Flags := beUint16 (buf.drop 2),
           NumQuestions := beUint16 (buf.drop 4),
           NumAnswers := beUint16 (buf.drop 6),
           NumAuthorities := beUint16 (buf.drop 8),
           NumAdditionals := beUint16 (buf.drop 10) }, s1)
  | (.err e, s1) => (.err e, s1)
  | (.crash, s1) => (.crash, s1)
  | (.diverge, s1) => (.diverge, s1)

/-- The loop body of `parseDomainName`, with the accumulated `nameParts` and
a fuel bound on the number of loop iterations and pointer sub-parses (the
source has no such bound: a pointer cycle recurses forever, which `diverge`
models).  Each iteration reads one length byte via
`copy(lenByte, d.bytes[d.offset:d.offset+1])` — the slice panics when
`offset+1` exceeds the buffer length, so the source's `n < len(lenByte)`
guard is unreachable; likewise for the label read.  A length byte with both
top bits set reads the next byte (`pointer := d.bytes[d.offset]`, an index
that panics at the end of the buffer) and hands it to
`parseCompressedName`, which saves the offset, re-parses at offset
`pointer`, restores the saved offset on success (the outer loop then skips
the pointer byte and breaks) and returns without restoring on failure. -/
def parseNameLoop :
    Nat → List (List Nat) → DNSResponseParser →
      GoRes (List Nat) × DNSResponseParser
  | 0, _, s => (.diverge, s)
  | fuel + 1, nameParts, s =>
    if s.offset + 1 ≤ s.bytes.length then
      let b := s.bytes.getD s.offset 0
      let s1 : DNSResponseParser := ⟨s.bytes, s.offset + 1⟩
      if b &&& 192 = 192 then
        if s1.offset < s1.bytes.length then
          let ptr := s1.bytes.getD s1.offset 0
          match parseNameLoop fuel [] ⟨s1.bytes, ptr⟩ with
          | (.ok name, _) =>
            (.ok (joinDots (nameParts ++ [name])), ⟨s1.bytes, s1.offset + 1⟩)
          | (.err e, s2) => (.err e, s2)
          | (.crash, s2) => (.crash, s2)
          | (.diverge, s2) => (.diverge, s2)
        else (.crash, s1)
      else if b = 0 then (.ok (joinDots nameParts), s1)
      else
        if s1.offset + b ≤ s1.bytes.length then
          parseNameLoop fuel (nameParts ++ [(s1.bytes.drop s1.offset).take b])
            ⟨s1.bytes, s1.offset + b⟩
        else (.crash, s1)
    else (.crash, s)

/-- `parseDomainName`: run the loop with an empty `nameParts` list; the
decoded name is the dot-join of the collected parts. -/
def parseDomainName (fuel : Nat) (s : DNSResponseParser) :
    GoRes (List Nat) × DNSResponseParser :=
  parseNameLoop fuel [] s

/-- `parseQuestion`: domain name, then record type and class via
`readUint16`; every constituent failure is returned unchanged. -/
def parseQuestion (fuel : Nat) (s : DNSResponseParser) :
    GoRes DNSQuestion × DNSResponseParser :=
  match parseDomainName fuel s with
  | (.ok name, s1) =>
    match readUint16 s1 with
    | (.ok rt, s2) =>
      match readUint16 s2 with
      | (.ok rc, s3) =>
        (.ok { domainName := name, recordType := rt, recordClass := rc }, s3)
      | (.err e, s3) => (.err e, s3)
      | (.crash, s3) => (.crash, s3)
      | (.diverge, s3) => (.diverge, s3)
    | (.err e, s2) => (.err e, s2)
    | (.crash, s2) => (.crash, s2)
    | (.diverge, s2) => (.diverge, s2)
  | (.err e, s1) => (.err e, s1)
  | (.crash, s1) => (.crash, s1)
  | (.diverge, s1) => (.diverge, s1)

/-- `parseRecord`: name, type, class, TTL, data length, then exactly
`DataLength` data bytes; a failed data read is mapped to
`errParsingRecord`, all earlier failures are returned unchanged. -/
def parseRecord (fuel : Nat) (s : DNSResponseParser) :
    GoRes DNSRecord × DNSResponseParser :=
  match parseDomainName fuel s with
  | (.ok name, s1) =>
    match readUint16 s1 with
    | (.ok rt, s2) =>
      match readUint16 s2 with
      | (.ok cls, s3) =>
        match readUint32 s3 with
        | (.ok ttl, s4) =>
          match readUint16 s4 with
          | (.ok dl, s5) =>
            match read s5 dl with
            | (.ok data, s6) =>
              (.ok { Name := name, RecordType := rt, Class := cls,
                     Ttl := ttl, DataLength := dl, Data := data }, s6)
            | (.err _, s6) => (.err .parsingRecord, s6)
            | (.crash, s6) => (.crash, s6)
            | (.diverge, s6) => (.diverge, s6)
          | (.err e, s5) => (.err e, s5)
          | (.crash, s5) => (.crash, s5)
          | (.diverge, s5) => (.diverge, s5)
        | (.err e, s4) => (.err e, s4)
        | (.crash, s4) => (.crash, s4)
        | (.diverge, s4) => (.diverge, s4)
      | (.err e, s3) => (.err e, s3)
      | (.crash, s3) => (.crash, s3)
      | (.diverge, s3) => (.diverge, s3)
    | (.err e, s2) => (.err e, s2)
    | (.crash, s2) => (.crash, s2)
    | (.diverge, s2) => (.diverge, s2)
  | (.err e, s1) => (.err e, s1)
  | (.crash, s1) => (.crash, s1)
  | (.diverge, s1) => (.diverge, s1)

/-- The byte string "www.example.com". -/
def wwwExampleCom : List Nat :=
  [119, 119, 119, 46, 101, 120, 97, 109, 112, 108, 101, 46, 99, 111, 109]

/-- The sample 49-byte DNS response used by the specification's end-to-end
scenario and by `TestParseHeader`. -/
def sampleResponse : List Nat :=
  [134, 253, 129, 128, 0, 1, 0, 1, 0, 0, 0, 0,
   3, 119, 119, 119, 7, 101, 120, 97, 109, 112, 108, 101, 3, 99, 111, 109, 0,
   0, 1, 0, 1,
   192, 12, 0, 1, 0, 1, 0, 0, 80, 205, 0, 4, 93, 184, 216, 34]

/-- The label part of `encodeDomain`'s output, written recursively: a length
byte and the raw bytes for each part (the zero terminator excluded).  Used to
relate the encoder's `foldl` loop to the decoder by induction. -/
def encodeParts : List (List Nat) → List Nat
  | [] => []
  | p :: ps => (p.length % 256) :: p ++ encodeParts ps

theorem getD_append_cons (l1 : List Nat) (x : Nat) (l2 : List Nat) :
    (l1 ++ x :: l2).getD l1.length 0 = x := by
  induction l1 with
  | nil => rfl
  | cons a t ih => simpa using ih

theorem land192_ne_of_le63 (n : Nat) (h : n ≤ 63) : n &&& 192 ≠ 192 := by
  have h2 : n &&& 192 ≤ n := Nat.and_le_left
  omega

theorem drop_take_middle (pre : List Nat) (x : Nat) (p Y : List Nat) :
    ((pre ++ x :: (p ++ Y)).drop (pre.length + 1)).take p.length = p := by
  have h : pre ++ x :: (p ++ Y) = (pre ++ [x]) ++ (p ++ Y) := by simp
  have h2 : pre.length + 1 = (pre ++ [x]).length := by simp
  rw [h, h2, List.drop_left, List.take_left]

theorem splitOnDot_ne_nil (d : List Nat) : splitOnDot d ≠ [] := by
  cases d with
  | nil => simp [splitOnDot]
  | cons c rest =>
    by_cases h : c = 46
    · simp [splitOnDot, h]
    · cases hr : splitOnDot rest <;> simp [splitOnDot, h, hr]

theorem joinDots_splitOnDot (d : List Nat) : joinDots (splitOnDot d) = d := by
  induction d with
  | nil => rfl
  | cons c rest ih =>
    by_cases h : c = 46
    · subst h
      cases hr : splitOnDot rest with
      | nil => exact absurd hr (splitOnDot_ne_nil rest)
      | cons p ps =>
        rw [hr] at ih
        simp only [splitOnDot, if_pos rfl, hr, joinDots, ih, List.nil_append]
    · cases hr : splitOnDot rest with
      | nil => exact absurd hr (splitOnDot_ne_nil rest)
      | cons p ps =>
        rw [hr] at ih
        cases ps with
        | nil => simp [splitOnDot, h, hr, joinDots] at ih ⊢; exact ih
        | cons q qs => simp [splitOnDot, h, hr, joinDots] at ih ⊢; simp [ih]

theorem foldl_encodeParts (ps : List (List Nat)) (init : List Nat) :
    ps.foldl (fun output part => output ++ (part.length % 256) :: part) init =
      init ++ encodeParts ps := by
  induction ps generalizing init with
  | nil => simp [encodeParts]
  | cons p t ih => simp [encodeParts, ih]

theorem encodeDomain_eq (d : List Nat) :
    encodeDomain d = encodeParts (splitOnDot d) ++ [0] := by
  rw [encodeDomain, foldl_encodeParts]
  simp

theorem parseNameLoop_zeroByte (fuel : Nat) (acc : List (List Nat))
    (bytes : List Nat) (off : Nat)
    (h1 : off + 1 ≤ bytes.length) (hb : bytes.getD off 0 = 0) :
    parseNameLoop (fuel + 1) acc ⟨bytes, off⟩ =
      (.ok (joinDots acc), ⟨bytes, off + 1⟩) := by
  simp only [parseNameLoop]
  rw [if_pos h1, hb, if_neg (by decide : ¬(0 &&& 192 = 192)), if_pos rfl]

theorem parseNameLoop_label (fuel : Nat) (acc : List (List Nat))
    (bytes : List Nat) (off b : Nat)
    (hb : bytes.getD off 0 = b)
    (hmask : b &&& 192 ≠ 192) (hnz : b ≠ 0)
    (h2 : off + 1 + b ≤ bytes.length) :
    parseNameLoop (fuel + 1) acc ⟨bytes, off⟩ =
      parseNameLoop fuel (acc ++ [(bytes.drop (off + 1)).take b])
        ⟨bytes, off + 1 + b⟩ := by
  have h1 : off + 1 ≤ bytes.length := by omega
  simp only [parseNameLoop]
  rw [if_pos h1, hb, if_neg hmask, if_neg hnz, if_pos h2]

theorem parseNameLoop_pointer (fuel : Nat) (acc : List (List Nat))
    (bytes : List Nat) (off : Nat) (nm : List Nat) (s2 : DNSResponseParser)
    (h1 : off + 1 < bytes.length)
    (hmask : bytes.getD off 0 &&& 192 = 192)
    (hsub : parseNameLoop fuel [] ⟨bytes, bytes.getD (off + 1) 0⟩ =
      (.ok nm, s2)) :
    parseNameLoop (fuel + 1) acc ⟨bytes, off⟩ =
      (.ok (joinDots (acc ++ [nm])), ⟨bytes, off + 2⟩) := by
  have h0 : off + 1 ≤ bytes.length := by omega
  simp only [parseNameLoop]
  rw [if_pos h0, if_pos hmask, if_pos h1, hsub]

theorem parseNameLoop_encodeParts (ps : List (List Nat)) :
    ∀ (fuel : Nat) (acc : List (List Nat)) (pre rest : List Nat),
      (∀ p ∈ ps, 1 ≤ p.length ∧ p.length ≤ 63) →
      ps.length + 1 ≤ fuel →
      parseNameLoop fuel acc ⟨pre ++ (encodeParts ps ++ 0 :: rest), pre.length⟩ =
        (.ok (joinDots (acc ++ ps)),
         ⟨pre ++ (encodeParts ps ++ 0 :: rest),
          pre.length + ((encodeParts ps).length + 1)⟩) := by
  induction ps with
  | nil =>
    intro fuel acc pre rest _ hfuel
    obtain ⟨f, rfl⟩ : ∃ f, fuel = f + 1 := ⟨fuel - 1, by omega⟩
    have hb : (pre ++ (encodeParts [] ++ 0 :: rest)).getD pre.length 0 = 0 := by
      simpa [encodeParts] using getD_append_cons pre 0 rest
    rw [parseNameLoop_zeroByte f acc _ pre.length (by simp [encodeParts]) hb]
    simp [encodeParts]
  | cons p ps ih =>
    intro fuel acc pre rest hlen hfuel
    obtain ⟨f, rfl⟩ : ∃ f, fuel = f + 1 := ⟨fuel - 1, by omega⟩
    obtain ⟨hp1, hp63⟩ := hlen p (by simp)
    have hmod : p.length % 256 = p.length := Nat.mod_eq_of_lt (by omega)
    have hshape : pre ++ (encodeParts (p :: ps) ++ 0 :: rest) =
        pre ++ p.length % 256 :: (p ++ (encodeParts ps ++ 0 :: rest)) := by
      simp [encodeParts]
    have hb : (pre ++ (encodeParts (p :: ps) ++ 0 :: rest)).getD pre.length 0 =
        p.length := by
      rw [hshape, getD_append_cons, hmod]
    have hbound : pre.length + 1 + p.length ≤
        (pre ++ (encodeParts (p :: ps) ++ 0 :: rest)).length := by
      simp [encodeParts]
      omega
    rw [parseNameLoop_label f acc _ pre.length p.length hb
      (land192_ne_of_le63 p.length hp63) (by omega) hbound]
    have hpart : ((pre ++ (encodeParts (p :: ps) ++ 0 :: rest)).drop
        (pre.length + 1)).take p.length = p := by
      rw [hshape]
      exact drop_take_middle pre (p.length % 256) p (encodeParts ps ++ 0 :: rest)
    rw [hpart]
    have hpre2 : pre ++ (encodeParts (p :: ps) ++ 0 :: rest) =
        (pre ++ p.length % 256 :: p) ++ (encodeParts ps ++ 0 :: rest) := by
      simp [encodeParts]
    have hoff : pre.length + 1 + p.length =
        (pre ++ p.length % 256 :: p).length := by
      simp
      omega
    rw [hpre2, hoff,
      ih f (acc ++ [p]) (pre ++ p.length % 256 :: p) rest
        (fun q hq => hlen q (by simp [hq])) (by simp at hfuel; omega)]
    simp only [Prod.mk.injEq, GoRes.ok.injEq, DNSResponseParser.mk.injEq]
    refine ⟨by simp, trivial, ?_⟩
    simp [encodeParts]
    omega

theorem parseNameLoop_no_err (fuel : Nat) :
    ∀ (acc : List (List Nat)) (s : DNSResponseParser) (e : DNSErr)
      (s2 : DNSResponseParser), parseNameLoop fuel acc s ≠ (.err e, s2) := by
  induction fuel with
  | zero =>
    intro acc s e s2 h
    simp [parseNameLoop] at h
  | succ f ih =>
    intro acc s e s2 h
    simp only [parseNameLoop] at h
    split at h
    · split at h
      · split at h
        · split at h
          · simp at h
          · rename_i heq
            exact ih _ _ _ _ heq
          · simp at h
          · simp at h
        · simp at h
      · split at h
        · simp at h
        · split at h
          · exact ih _ _ _ _ h
          · simp at h
    · simp at h

/-- Claim C1: refuted by the code — on a buffer whose name bytes are
truncated (a label length byte announcing 3 bytes with only 1 present),
`parseDomainName` does not return a parse error: the label slice
`d.bytes[d.offset:d.offset+len(namePart)]` is out of range and the process
aborts (modelled by `crash`).  The source's `errParsingDomainName` guards
sit after slice expressions that already panic, so they are unreachable. -/
theorem C1_name_truncation_crashes :
    parseDomainName 8 ⟨[3, 119], 0⟩ = (.crash, ⟨[3, 119], 1⟩) := by decide

/-- Claim C2 counterexample: the byte sequence the claim demands (ending in
class bytes `00 00`) differs from `buildQuery`'s output, which ends in the
class `IN = 1`, i.e. `00 01`. -/
theorem C2_claimed_bytes_refuted :
    (buildQuery 0x8298 wwwExampleCom 1).drop 2 ≠
      [0x01, 0x00, 0x00, 0x01, 0x00, 0x00, 0x00, 0x00, 0x00, 0x00,
       0x03, 0x77, 0x77, 0x77, 0x07, 0x65, 0x78, 0x61, 0x6D, 0x70, 0x6C, 0x65,
       0x03, 0x63, 0x6F, 0x6D, 0x00, 0x00, 0x01, 0x00, 0x00] := by decide

/-- Claim C2 (amended): for any query ID, the bytes of
`buildQuery("www.example.com", 1)` after the 2 query-ID bytes are
`01 00 00 01 00 00 00 00 00 00 03 777777 07 6578616D706C65 03 636F6D 00
00 01 00 01` — the final class bytes are `00 01`, not `00 00`. -/
theorem C2_encode_query_fixed_bytes (queryId : Nat) :
    (buildQuery queryId wwwExampleCom 1).drop 2 =
      [0x01, 0x00, 0x00, 0x01, 0x00, 0x00, 0x00, 0x00, 0x00, 0x00,
       0x03, 0x77, 0x77, 0x77, 0x07, 0x65, 0x78, 0x61, 0x6D, 0x70, 0x6C, 0x65,
       0x03, 0x63, 0x6F, 0x6D, 0x00, 0x00, 0x01, 0x00, 0x01] := by
  simp only [buildQuery, headerBytes, u16be]
  norm_num
  rfl

/-- Claim C3: for any domain name whose dot-delimited labels all have
length 1 to 63, parsing the encoder's output name field (with enough fuel
for its labels) reproduces the original domain name exactly and consumes
the whole encoding. -/
theorem C3_name_roundtrip (d : List Nat) (fuel : Nat)
    (hlab : ∀ p ∈ splitOnDot d, 1 ≤ p.length ∧ p.length ≤ 63)
    (hfuel : (splitOnDot d).length + 1 ≤ fuel) :
    parseDomainName fuel ⟨encodeDomain d, 0⟩ =
      (.ok d, ⟨encodeDomain d, (encodeDomain d).length⟩) := by
  have h := parseNameLoop_encodeParts (splitOnDot d) fuel [] [] [] hlab hfuel
  rw [parseDomainName, encodeDomain_eq]
  simpa [joinDots_splitOnDot d] using h

/-- Witness for C3 at the concrete name "www.example.com". -/
theorem C3_name_roundtrip_witness :
    ((∀ p ∈ splitOnDot wwwExampleCom, 1 ≤ p.length ∧ p.length ≤ 63) ∧
      (splitOnDot wwwExampleCom).length + 1 ≤ 5) ∧
    parseDomainName 5 ⟨encodeDomain wwwExampleCom, 0⟩ =
      (.ok wwwExampleCom,
       ⟨encodeDomain wwwExampleCom, (encodeDomain wwwExampleCom).length⟩) :=
  ⟨⟨by decide, by decide⟩, C3_name_roundtrip wwwExampleCom 5 (by decide) (by decide)⟩

/-- Claim C6: on the literal 49-byte sample response, `parseHeader`,
`parseQuestion` and `parseRecord` in sequence yield Flags 0x8180 with one
question; the question "www.example.com" with type 1 and class 1; and the
record "www.example.com" (through the 0xC00C pointer to offset 12) with
type 1, class 1, TTL 0x50CD, data length 4 and data 5D B8 D8 22. -/
theorem C6_end_to_end :
    parseHeader ⟨sampleResponse, 0⟩ =
      (.ok ⟨0x86FD, 0x8180, 1, 1, 0, 0⟩, ⟨sampleResponse, 12⟩) ∧
    parseQuestion 10 ⟨sampleResponse, 12⟩ =
      (.ok ⟨wwwExampleCom, 1, 1⟩, ⟨sampleResponse, 33⟩) ∧
    parseRecord 10 ⟨sampleResponse, 33⟩ =
      (.ok ⟨wwwExampleCom, 1, 1, 0x50CD, 4, [0x5D, 0xB8, 0xD8, 0x22]⟩,
       ⟨sampleResponse, 49⟩) := by decide

/-- Claim C7 counterexample: encoding the empty domain name does not give
the single terminator byte. -/
theorem C7_empty_name_refuted : encodeDomain [] ≠ [0] := by decide

/-- Claim C7 (amended): `strings.Split("", ".")` yields one empty part, so
encoding the empty string emits a zero length byte for that part and then
the zero terminator: two zero bytes, not one. -/
theorem C7_empty_name_two_bytes : encodeDomain [] = [0, 0] := rfl

/-- Claim C4: when the length byte at the cursor has both top bits set, the
single following byte (`bytes.getD (off + 1) 0`) is the absolute parse
target — the low six bits of the tag byte play no role — and the name
decoded at that target is appended as the final part of the current name. -/
theorem C4_pointer_single_byte_target (fuel : Nat) (acc : List (List Nat))
    (bytes nm : List Nat) (off : Nat) (s2 : DNSResponseParser)
    (h1 : off + 1 < bytes.length)
    (hmask : bytes.getD off 0 &&& 192 = 192)
    (hsub : parseNameLoop fuel [] ⟨bytes, bytes.getD (off + 1) 0⟩ =
      (.ok nm, s2)) :
    parseNameLoop (fuel + 1) acc ⟨bytes, off⟩ =
      (.ok (joinDots (acc ++ [nm])), ⟨bytes, off + 2⟩) :=
  parseNameLoop_pointer fuel acc bytes off nm s2 h1 hmask hsub

/-- Witness for C4: buffer `C0 02 01 61 00`; the pointer byte 02 names the
label "a" at offset 2, and the pointed-to labels become the name. -/
theorem C4_pointer_single_byte_target_witness :
    (0 + 1 < ([192, 2, 1, 97, 0] : List Nat).length ∧
      ([192, 2, 1, 97, 0] : List Nat).getD 0 0 &&& 192 = 192 ∧
      parseNameLoop 5 [] ⟨[192, 2, 1, 97, 0],
        ([192, 2, 1, 97, 0] : List Nat).getD (0 + 1) 0⟩ =
        (.ok [97], ⟨[192, 2, 1, 97, 0], 5⟩)) ∧
    parseNameLoop 6 [] ⟨[192, 2, 1, 97, 0], 0⟩ =
      (.ok [97], ⟨[192, 2, 1, 97, 0], 2⟩) :=
  ⟨⟨by decide, by decide, by decide⟩,
   C4_pointer_single_byte_target 5 [] [192, 2, 1, 97, 0] [97] 0
     ⟨[192, 2, 1, 97, 0], 5⟩ (by decide) (by decide) (by decide)⟩

/-- Claim C5: when a name's first byte is a compression pointer and the
pointed-to sub-parse succeeds, `parseDomainName` returns with the cursor
exactly two bytes past where it started (the saved offset restored, then
advanced past the pointer's second byte), and the pointed-to name is the
whole result — no further labels are read after a pointer. -/
theorem C5_pointer_terminates_and_restores (fuel : Nat) (bytes nm : List Nat)
    (off : Nat) (s2 : DNSResponseParser)
    (h1 : off + 1 < bytes.length)
    (hmask : bytes.getD off 0 &&& 192 = 192)
    (hsub : parseDomainName fuel ⟨bytes, bytes.getD (off + 1) 0⟩ =
      (.ok nm, s2)) :
    parseDomainName (fuel + 1) ⟨bytes, off⟩ = (.ok nm, ⟨bytes, off + 2⟩) := by
  rw [parseDomainName,
    parseNameLoop_pointer fuel [] bytes off nm s2 h1 hmask hsub]
  rfl

/-- Witness for C5: buffer `C0 03 00 00`; the pointer targets offset 3,
whose name is empty, and the cursor ends at offset 2, just past the
2-byte pointer. -/
theorem C5_pointer_terminates_and_restores_witness :
    (0 + 1 < ([192, 3, 0, 0] : List Nat).length ∧
      ([192, 3, 0, 0] : List Nat).getD 0 0 &&& 192 = 192 ∧
      parseDomainName 2 ⟨[192, 3, 0, 0],
        ([192, 3, 0, 0] : List Nat).getD (0 + 1) 0⟩ =
        (.ok [], ⟨[192, 3, 0, 0], 4⟩)) ∧
    parseDomainName 3 ⟨[192, 3, 0, 0], 0⟩ = (.ok [], ⟨[192, 3, 0, 0], 2⟩) :=
  ⟨⟨by decide, by decide, by decide⟩,
   C5_pointer_terminates_and_restores 2 [192, 3, 0, 0] [] 0
     ⟨[192, 3, 0, 0], 4⟩ (by decide) (by decide) (by decide)⟩

theorem readUint16_err_eq (s : DNSResponseParser) (e : DNSErr)
    (s1 : DNSResponseParser) (h : readUint16 s = (.err e, s1)) :
    e = .parsingRecord := by
  unfold readUint16 at h
  split at h <;> simp_all

theorem readUint32_err_eq (s : DNSResponseParser) (e : DNSErr)
    (s1 : DNSResponseParser) (h : readUint32 s = (.err e, s1)) :
    e = .parsingRecord := by
  unfold readUint32 at h
  split at h <;> simp_all

/-- Claim C8 counterexample: on input `00 00` (an empty name, then one byte
too few for the record type), `parseQuestion`'s fixed-width read fails,
yet the error returned is `errParsingRecord` — not `errInsufficientData`
and not `errParsingDomainName`, the only kinds the claim allows. -/
theorem C8_question_error_refuted :
    parseQuestion 4 ⟨[0, 0], 0⟩ = (.err .parsingRecord, ⟨[0, 0], 1⟩) ∧
    DNSErr.parsingRecord ≠ DNSErr.insufficientData ∧
    DNSErr.parsingRecord ≠ DNSErr.parsingDomainName := by decide

/-- Claim C8 (amended): whenever `parseQuestion` returns an error, that
error is `errParsingRecord` — `readUint16` wraps every failed fixed-width
read in it, and name parsing never returns an error (truncated name bytes
abort instead of failing, see C1). -/
theorem C8_question_error_kind (fuel : Nat) (s : DNSResponseParser)
    (e : DNSErr) (s1 : DNSResponseParser)
    (h : parseQuestion fuel s = (.err e, s1)) : e = .parsingRecord := by
  unfold parseQuestion at h
  split at h
  · split at h
    · split at h
      · simp at h
      · rename_i heq
        simp only [Prod.mk.injEq, GoRes.err.injEq] at h
        exact h.1.symm.trans (readUint16_err_eq _ _ _ heq)
      · simp at h
      · simp at h
    · rename_i heq
      simp only [Prod.mk.injEq, GoRes.err.injEq] at h
      exact h.1.symm.trans (readUint16_err_eq _ _ _ heq)
    · simp at h
    · simp at h
  · rename_i heq
    exact absurd heq (parseNameLoop_no_err fuel [] s _ _)
  · simp at h
  · simp at h

/-- Witness for C8: on input `00` the record-type read fails and the
returned error is `errParsingRecord`. -/
theorem C8_question_error_kind_witness :
    parseQuestion 2 ⟨[0], 0⟩ = (.err DNSErr.parsingRecord, ⟨[0], 1⟩) ∧
    DNSErr.parsingRecord = DNSErr.parsingRecord :=
  ⟨by decide, C8_question_error_kind 2 ⟨[0], 0⟩ .parsingRecord ⟨[0], 1⟩
    (by decide)⟩

/-- Claim C9 counterexample: on input `03 77` the record's name cannot be
fully read, but `parseRecord` does not return `errParsingRecord` (or any
error) — the name parse aborts the process (`crash`). -/
theorem C9_record_name_failure_refuted :
    parseRecord 8 ⟨[3, 119], 0⟩ = (.crash, ⟨[3, 119], 1⟩) ∧
    (GoRes.crash : GoRes DNSRecord) ≠ GoRes.err DNSErr.parsingRecord := by
  decide

/-- Claim C9 (amended): whenever `parseRecord` returns an error — a failed
type, class, TTL, data-length or data read — that error is
`errParsingRecord`; a name that cannot be fully read aborts instead of
producing an error. -/
theorem C9_record_error_kind (fuel : Nat) (s : DNSResponseParser)
    (e : DNSErr) (s1 : DNSResponseParser)
    (h : parseRecord fuel s = (.err e, s1)) : e = .parsingRecord := by
  unfold parseRecord at h
  split at h
  · split at h
    · split at h
      · split at h
        · split at h
          · split at h
            · simp at h
            · simp only [Prod.mk.injEq, GoRes.err.injEq] at h
              exact h.1.symm
            · simp at h
            · simp at h
          · rename_i heq
            simp only [Prod.mk.injEq, GoRes.err.injEq] at h
            exact h.1.symm.trans (readUint16_err_eq _ _ _ heq)
          · simp at h
          · simp at h
        · rename_i heq
          simp only [Prod.mk.injEq, GoRes.err.injEq] at h
          exact h.1.symm.trans (readUint32_err_eq _ _ _ heq)
        · simp at h
        · simp at h
      · rename_i heq
        simp only [Prod.mk.injEq, GoRes.err.injEq] at h
        exact h.1.symm.trans (readUint16_err_eq _ _ _ heq)
      · simp at h
      · simp at h
    · rename_i heq
      simp only [Prod.mk.injEq, GoRes.err.injEq] at h
      exact h.1.symm.trans (readUint16_err_eq _ _ _ heq)
    · simp at h
    · simp at h
  · rename_i heq
    exact absurd heq (parseNameLoop_no_err fuel [] s _ _)
  · simp at h
  · simp at h

/-- Witness for C9: on input `00 00` the record-type read fails and the
returned error is `errParsingRecord`. -/
theorem C9_record_error_kind_witness :
    parseRecord 4 ⟨[0, 0], 0⟩ = (.err DNSErr.parsingRecord, ⟨[0, 0], 1⟩) ∧
    DNSErr.parsingRecord = DNSErr.parsingRecord :=
  ⟨by decide, C9_record_error_kind 4 ⟨[0, 0], 0⟩ .parsingRecord ⟨[0, 0], 1⟩
    (by decide)⟩

theorem read_eq_def (s : DNSResponseParser) (n : Nat) :
    read s n =
      if s.offset ≤ s.bytes.length then
        if (s.bytes.drop s.offset).length < n then (.err .insufficientData, s)
        else (.ok ((s.bytes.drop s.offset).take n), ⟨s.bytes, s.offset + n⟩)
      else (.crash, s) := rfl

/-- Claim C10 counterexample: a parser whose offset exceeds the buffer
length makes `read` panic (the slice `d.bytes[d.offset:]` is out of range):
the result is neither a success nor `errInsufficientData`. -/
theorem C10_read_state_refuted :
    read ⟨[], 1⟩ 0 = (.crash, ⟨[], 1⟩) ∧
    (GoRes.crash : GoRes (List Nat)) ≠ GoRes.err DNSErr.insufficientData := by
  decide

/-- Claim C10 (amended): for every parser state whose offset is at most the
buffer length (the states where the slice in `read` is legal), `read`
either succeeds, returning the next `n` bytes and advancing the offset by
exactly `n`, or returns `errInsufficientData` with the offset unchanged,
exactly when fewer than `n` bytes remain. -/
theorem C10_read_atomic (s : DNSResponseParser) (n : Nat)
    (h : s.offset ≤ s.bytes.length) :
    (n ≤ s.bytes.length - s.offset ∧
      read s n = (.ok ((s.bytes.drop s.offset).take n),
        ⟨s.bytes, s.offset + n⟩)) ∨
    (s.bytes.length - s.offset < n ∧
      read s n = (.err .insufficientData, s)) := by
  by_cases h2 : s.bytes.length - s.offset < n
  · right
    refine ⟨h2, ?_⟩
    rw [read_eq_def, if_pos h, if_pos (by simpa using h2)]
  · left
    refine ⟨by omega, ?_⟩
    rw [read_eq_def, if_pos h, if_neg (by simpa using h2)]

/-- Witness for C10 on the one-byte buffer `05` at offset 0 with a 1-byte
request. -/
theorem C10_read_atomic_witness :
    ((0 : Nat) ≤ 1) ∧
    ((1 ≤ (1 : Nat) ∧ read ⟨[5], 0⟩ 1 = (.ok [5], ⟨[5], 1⟩)) ∨
      ((1 : Nat) < 1 ∧ read ⟨[5], 0⟩ 1 = (.err .insufficientData, ⟨[5], 0⟩))) :=
  ⟨by decide, C10_read_atomic ⟨[5], 0⟩ 1 (by decide)⟩
